import Mathlib

/-!
Verification development for eth_getProofTester.

Shallow embedding of the two Python source files:
  benchmark.py   -- CSV row loading, block-number resolution, the per-request
                    success classification and the latency/percentile report
  gen_dataset.py -- the retrying JSON-RPC client, the contract heuristic and
                    the per-transaction CSV row emission of the crawler

Network calls, wall-clock time and randomness are passed in as explicit
oracle parameters; everything else is translated directly from the source.
-/

namespace EthProofTester

/-- JSON values, as needed to model request payloads and response bodies.
Objects keep their fields as an association list; Python dict lookup is
modelled by the first match (keys are unique in every body we consider). -/
inductive Json where
  | null
  | bool (b : Bool)
  | num (n : Int)
  | str (s : String)
  | arr (elems : List Json)
  | obj (fields : List (String × Json))

/-- Lookup of a key in a JSON object body, Python `data.get(k)` /
`k in data` on a dict. -/
def Json.getField : Json → String → Option Json
  | .obj fs, k => fs.lookup k
  | _, _ => none

/-- Python `hex(n)`: lowercase hexadecimal with a `0x` marker, minus sign
first for negative numbers (`to_hex` in both source files). -/
def to_hex (n : Int) : String :=
  if n < 0 then "-0x" ++ (Nat.toDigits 16 n.natAbs).asString
  else "0x" ++ (Nat.toDigits 16 n.toNat).asString

/-- Python whitespace characters recognised by `str.strip()` (ASCII range;
the CSV cells this program strips are ASCII). -/
def isPySpace (c : Char) : Bool :=
  c == ' ' || c == '\t' || c == '\n' || c == '\r' || c == '\x0b' || c == '\x0c'

/-- Python `s.strip()`: remove leading and trailing whitespace. -/
def pyStrip (s : String) : String :=
  String.mk (((s.data.dropWhile isPySpace).reverse.dropWhile isPySpace).reverse)

/-- Python `s.lower()` on the ASCII strings this program compares. -/
def pyLower (s : String) : String := String.mk (s.data.map Char.toLower)

/-- Decimal digit run parse, the core of Python `int(s)`. -/
def parseDigits (ds : List Char) : Option Nat :=
  if ds = [] then none
  else if ds.all (fun c => c.isDigit) then
    some (ds.foldl (fun a c => a * 10 + (c.toNat - 48)) 0)
  else none

/-- Python `int(s)` on an already-stripped string: optional sign followed by
decimal digits, `none` when the parse raises `ValueError`.  (Digit-group
underscores, accepted by Python, do not occur in this data and are not
modelled.) -/
def parse_int (s : String) : Option Int :=
  match s.data with
  | '+' :: ds => (parseDigits ds).map Int.ofNat
  | '-' :: ds => (parseDigits ds).map (fun n => -(n : Int))
  | ds => (parseDigits ds).map Int.ofNat

/-- One record of the input CSV as `csv.DictReader` hands it to `load_rows`:
the three required columns, each possibly absent on a short line
(`r.get(k)` then yields `None`). -/
structure CsvRecord where
  block_number : Option String
  address : Option String
  storage_slot : Option String

/-- A row as produced by `load_rows`: optional block number, address,
optional storage slot. -/
abbrev LoadedRow := Option Int × String × Option String

/-- Body of the per-record branch of `load_rows` (benchmark.py lines 51-67):
strip the address and skip the record when it is empty; map a `"null"` or
empty slot cell to `none`; parse the block-number cell, invalid numbers
becoming `none`. -/
def load_row (r : CsvRecord) : Option LoadedRow :=
  let addr := pyStrip (r.address.getD "")
  if addr = "" then none
  else
    let raw_slot := pyStrip (r.storage_slot.getD "")
    let slot : Option String :=
      if raw_slot = "" ∨ pyLower raw_slot = "null" then none else some raw_slot
    let bn_raw := pyStrip (r.block_number.getD "")
    let bn : Option Int := if bn_raw = "" then none else parse_int bn_raw
    some (bn, addr, slot)

/-- Python `load_rows` (benchmark.py): fold `load_row` over the records. -/
def load_rows (recs : List CsvRecord) : List LoadedRow :=
  recs.filterMap load_row

/-- A resolved row `(effective_bn, original_bn_opt, addr, slot)` as built by
`resolve_block_numbers`. -/
abbrev ResolvedRow := Int × Option Int × String × Option String

/-- Loop body of `resolve_block_numbers` (benchmark.py lines 77-89), with the
running `last_bn` state made an explicit argument; returns the resolved rows
and the skipped-row count. -/
def resolve_aux (last_bn : Option Int) : List LoadedRow → List ResolvedRow × Nat
  | [] => ([], 0)
  | (bn_opt, addr, slot) :: rest =>
    match bn_opt with
    | some bn =>
      let p := resolve_aux (some bn) rest
      ((bn, some bn, addr, slot) :: p.1, p.2)
    | none =>
      match last_bn with
      | some l =>
        let p := resolve_aux (some l) rest
        ((l, none, addr, slot) :: p.1, p.2)
      | none =>
        let p := resolve_aux none rest
        (p.1, p.2 + 1)

/-- Python `resolve_block_numbers` (benchmark.py): start with no block seen. -/
def resolve_block_numbers (rows : List LoadedRow) : List ResolvedRow × Nat :=
  resolve_aux none rows

/-- Warning line printed by `resolve_block_numbers` when rows were skipped
(benchmark.py lines 90-91); `none` when no row was skipped. -/
def resolve_warning (rows : List LoadedRow) : Option String :=
  let skipped := (resolve_block_numbers rows).2
  if skipped = 0 then none
  else some ("[WARN] Skipped " ++ toString skipped ++
    " rows with empty/invalid block_number before any valid block was seen.")

/-- Block parameter of a proof request: a concrete number or a symbolic tag
such as "latest". -/
inductive BlockParam where
  | num (n : Int)
  | tag (s : String)

/-- Python `build_payload` (benchmark.py lines 13-21). -/
def build_payload (req_id : Nat) (address : String) (slot : Option String)
    (block_param : BlockParam) : Json :=
  let block_tag : String :=
    match block_param with
    | .num n => to_hex n
    | .tag s => s
  let storage_keys : List Json := (slot.toList).map Json.str
  Json.obj
    [("jsonrpc", Json.str "2.0"),
     ("id", Json.num req_id),
     ("method", Json.str "eth_getProof"),
     ("params", Json.arr [Json.str address, Json.arr storage_keys, Json.str block_tag])]

/-- Outcome of one `session.post`: either the request itself raised
(connection error / timeout), or a response arrived with an HTTP status, a
raw body text, and the result of `resp.json()` (`none` when the body is not
JSON and `resp.json()` raises). -/
inductive HttpOutcome where
  | exn (msg : String)
  | resp (status : Nat) (body : String) (parsed : Option Json)

/-- Python `resp.raise_for_status()`: raises exactly for status codes in
[400, 600). -/
def raise_for_status (status : Nat) : Bool :=
  decide (400 ≤ status) && decide (status < 600)

/-- Per-request success classification of `run_batch` (benchmark.py lines
126-146): the `try` block sets `ok`/`error_msg`.  Any exception inside it
(transport failure, `raise_for_status`, JSON decoding, or dict access on a
non-dict body) falls to the `except` arm with `ok = False`. -/
def classify : HttpOutcome → Bool × Option String
  | .exn m => (false, some m)
  | .resp status _ parsed =>
    if raise_for_status status then
      (false, some ("HTTP error " ++ toString status))
    else
      match parsed with
      | none => (false, some "JSON decode error")
      | some (Json.obj fs) =>
        match fs.lookup "error" with
        | some _ => (false, some "RPC error")
        | none =>
          match fs.lookup "result" with
          | some (Json.obj rfs) =>
            if (rfs.lookup "accountProof").isSome && (rfs.lookup "storageProof").isSome
            then (true, none)
            else (false, some "Missing expected fields in result.")
          | _ => (false, some "Missing expected fields in result.")
      | some _ => (false, some "Missing expected fields in result.")

/-- Percentile index used by `run_batch`: `int(p * (n - 1))`, which on these
operands equals the floor of the exact product. -/
def pct_index (p : ℚ) (n : Nat) : Nat := (Int.floor (p * ((n : ℚ) - 1))).toNat

/-- Latency summary of `run_batch` (benchmark.py lines 172-175): sort the
latencies ascending, index p50 and p95 by the floor formula, and use the
last element for p99 when fewer than 100 samples exist. -/
structure LatencyStats where
  p50 : ℚ
  p95 : ℚ
  p99 : ℚ

/-- Compute the latency statistics of `run_batch` (benchmark.py 172-175). -/
def latency_stats (latencies : List ℚ) : LatencyStats :=
  let lat_sorted := List.insertionSort (· ≤ ·) latencies
  { p50 := lat_sorted.getD (pct_index (1/2) latencies.length) 0
    p95 := lat_sorted.getD (pct_index (19/20) latencies.length) 0
    p99 :=
      if 100 ≤ latencies.length then
        lat_sorted.getD (pct_index (99/100) latencies.length) 0
      else lat_sorted.getLast?.getD 0 }

/-- Summary line printed by `run_batch` when no usable row remains
(benchmark.py line 106). -/
def no_rows_line (mode_name : String) : String :=
  "[" ++ mode_name ++ "] No usable rows."

/-- Result of one `run_batch` call: either the early no-rows return, or the
aggregate report (total, successes, failures, latency stats, fail rate). -/
inductive BatchReport where
  | noRows (line : String)
  | report (total successes failures : Nat) (stats : LatencyStats) (fail_rate : ℚ)

/-- Python `run_batch` (benchmark.py lines 94-196).  The network and the
clock are an oracle: `oracle i` is the HTTP outcome and the elapsed wall
time of row `i` (0-based).  Returns the payloads issued, in order, and the
report.  With no rows it returns before issuing any request and before the
percentile indexing and the fail-rate division. -/
def run_batch (mode_name : String) (oracle : Nat → HttpOutcome × ℚ)
    (block_param_fn : Int → BlockParam) (rows : List ResolvedRow) :
    List Json × BatchReport :=
  if rows.isEmpty then ([], .noRows (no_rows_line mode_name))
  else
    let payloads := rows.enum.map (fun p =>
      build_payload (p.1 + 1) p.2.2.2.1 p.2.2.2.2 (block_param_fn p.2.1))
    let oks := (List.range rows.length).map (fun i => (classify (oracle i).1).1)
    let latencies := (List.range rows.length).map (fun i => (oracle i).2)
    let successes := oks.count true
    let failures := oks.count false
    let fail_rate := ((failures : ℚ) / (rows.length : ℚ)) * 100
    (payloads, .report rows.length successes failures (latency_stats latencies) fail_rate)

/-- Retry loop of `JsonRpc.call` (gen_dataset.py lines 24-40).  The transport
is an oracle: `transport k` is the outcome of attempt `k` (0-based); an
`Except.error` covers every exception of the `try` body (transport failure,
`raise_for_status`, JSON decoding, or the `RuntimeError` raised on an
`error` field).  Returns the number of attempts issued and the final
outcome; a final `Except.error` carries the last underlying error, as the
closing `RuntimeError(... last_err)` does. -/
def call_loop (transport : Nat → Except String Json) (max_retries : Nat)
    (retries : Nat) (last_err : String) : Nat × Except String Json :=
  if retries ≤ max_retries then
    match transport retries with
    | .ok v => (retries + 1, .ok v)
    | .error e =>
      if h : retries = max_retries then (retries + 1, .error e)
      else call_loop transport max_retries (retries + 1) e
  else (retries, .error last_err)
termination_by max_retries + 1 - retries
decreasing_by
  have hlt : retries < max_retries := by omega
  omega

/-- Python `JsonRpc.call` (gen_dataset.py): enter the loop with
`retries = 0` and no last error. -/
def jsonrpc_call (transport : Nat → Except String Json) (max_retries : Nat) :
    Nat × Except String Json :=
  call_loop transport max_retries 0 "None"

/-- Python `is_contract_by_nonce_zero` (gen_dataset.py lines 54-60), with the
network folded into its observable result: `Except.error` when
`rpc.call` or the hex parse of its result raised (the `except` arm returns
`False`); `Except.ok v` when the nonce query succeeded, `v = none` for a
JSON `null` result (`to_int(None)`).  `nonce = to_int(nonce_hex) or 0`
turns `none` (and a zero nonce) into `0`; the address is of interest iff
the final value equals 1.  The call site passes `block_tag = to_hex(bn)` of
the crawled block. -/
def is_contract_by_nonce_zero (nonce_query : Except String (Option Int)) : Bool :=
  match nonce_query with
  | .error _ => false
  | .ok v => (v.getD 0) == 1

/-- One CSV row written by the crawler (gen_dataset.py `fields`), with the
cells as written: `storage_slot` is the literal text of the cell (the
string "null" marks an absent slot). -/
structure CrawlRow where
  block_number : Int
  address : String
  storage_slot : String
  randomized_account : Bool
  randomized_slot : Bool
deriving DecidableEq

/-- Storage-slot assignment of the per-transaction body of `main`
(gen_dataset.py lines 133-142): the slot sampled by
`get_4th_storage_slot_via_debug` is kept only when both addresses are
non-empty, the block hash and the transaction index are present, and the
nonce heuristic fired; in every other case `storage_slot` stays `None`.
`is_contract` and `slot_sample` stand for the two network-dependent
results. -/
def tx_storage_slot (block_hash : Option String) (tx_index : Option Nat)
    (is_contract : Bool) (slot_sample : Option String)
    (from_addr to_addr : String) : Option String :=
  if from_addr ≠ "" ∧ to_addr ≠ "" ∧ block_hash.isSome ∧ tx_index.isSome ∧ is_contract
  then slot_sample else none

/-- Python truthiness fallback `x if x else "null"` on a string cell. -/
def cell_or_null (s : String) : String := if s = "" then "null" else s

/-- Rows written for one transaction by `main` (gen_dataset.py lines
127-196), in order.  `tx_from` / `tx_to` are `tx.get("from")` /
`tx.get("to")` (absent field = `none`, normalised with `or ""`);
`rand_slot1`, `rand_slot2` are the two `rand_slot_key()` draws of the
noisy branch.  The baseline pair (a `to` row carrying the sampled slot or
the "null" marker, and a `from` row with no slot) is written
unconditionally; with `--noisy`, two marker rows are written for every
transaction and three more when a slot was sampled. -/
def tx_rows (noisy : Bool) (bn : Int) (block_hash : Option String)
    (is_contract : Bool) (slot_sample : Option String)
    (rand_slot1 rand_slot2 : String)
    (tx_from tx_to : Option String) (tx_index : Option Nat) : List CrawlRow :=
  let from_addr := tx_from.getD ""
  let to_addr := tx_to.getD ""
  let storage_slot := tx_storage_slot block_hash tx_index is_contract slot_sample
    from_addr to_addr
  let base : List CrawlRow :=
    [⟨bn, to_addr, cell_or_null (storage_slot.getD ""), false, false⟩,
     ⟨bn, from_addr, "null", false, false⟩]
  let noise : List CrawlRow :=
    if noisy then
      [⟨bn, from_addr, "null", true, false⟩,
       ⟨bn, to_addr, "null", false, true⟩] ++
      (if storage_slot.isSome then
        [⟨bn, from_addr, rand_slot1, false, true⟩,
         ⟨bn, to_addr, rand_slot2, false, true⟩,
         ⟨bn, to_addr, "null", false, true⟩]
      else [])
    else []
  base ++ noise

/-! Theorems. -/

/-- C6: during crawling, an address is treated as a contract of interest
iff its transaction count at the queried block state equals exactly 1, and
any failure of the nonce query is treated as not a contract of interest
(the function totalises the failure instead of propagating it). -/
theorem contract_iff_nonce_one (q : Except String (Option Int)) :
    (is_contract_by_nonce_zero q = true ↔
      ∃ v : Option Int, q = Except.ok v ∧ v.getD 0 = 1)
    ∧ ∀ e : String, is_contract_by_nonce_zero (Except.error e) = false := by
  refine ⟨?_, fun e => rfl⟩
  cases q with
  | error e => simp [is_contract_by_nonce_zero]
  | ok v => simp [is_contract_by_nonce_zero]

/-- Helper for C3: once every attempt fails, the retry loop started at any
`retries ≤ max_retries` runs to the budget, issuing attempts up to index
`max_retries`, and ends with the error of the last attempt. -/
theorem call_loop_all_fail (transport : Nat → Except String Json)
    (errf : Nat → String) (hfail : ∀ i, transport i = Except.error (errf i))
    (max_retries : Nat) :
    ∀ (k retries : Nat) (last_err : String), max_retries - retries = k →
      retries ≤ max_retries →
      call_loop transport max_retries retries last_err =
        (max_retries + 1, Except.error (errf max_retries)) := by
  intro k
  induction k with
  | zero =>
    intro retries last_err hk hr
    have heq : retries = max_retries := by omega
    subst heq
    rw [call_loop]
    simp [hfail]
  | succ k ih =>
    intro retries last_err hk hr
    have hne : retries ≠ max_retries := by omega
    rw [call_loop]
    simp only [hr, if_true, hfail, hne, dite_false]
    exact ih (retries + 1) (errf retries) (by omega) (by omega)

/-- C3: `JsonRpc.call` configured with `max_retries = m`, against a
transport failing on every attempt, issues exactly `m + 1` attempts and
then fails with an error carrying the last attempt's underlying error. -/
theorem rpc_call_attempt_count (transport : Nat → Except String Json)
    (m : Nat) (errf : Nat → String)
    (hfail : ∀ i, transport i = Except.error (errf i)) :
    jsonrpc_call transport m = (m + 1, Except.error (errf m)) :=
  call_loop_all_fail transport errf hfail m m 0 "None" (by omega) (Nat.zero_le m)

/-- Witness for C3: with `max_retries = 2` and a permanently failing
transport, exactly 3 attempts are issued and the error of attempt 2 (the
last) is reported. -/
theorem rpc_call_attempt_count_witness :
    jsonrpc_call (fun i => Except.error (toString i)) 2 =
      (3, Except.error "2") :=
  rpc_call_attempt_count (fun i => Except.error (toString i)) 2
    (fun i => toString i) (fun _ => rfl)

/-- C7 counterexample: a transaction whose `to` field is absent still makes
the crawler emit its `to` row — with an empty address cell — so the claim
that no `to` row is emitted is false.  Concrete input: `bn = 100`, sender
`0xabc`, `to` absent, no noise mode.  The first emitted row is the `to`
row with an empty address. -/
theorem absent_to_still_writes_row :
    tx_rows false 100 (some "0xhash") false none "" "" (some "0xabc") none none =
      [⟨100, "", "null", false, false⟩, ⟨100, "0xabc", "null", false, false⟩] := by
  rfl

/-- C7 amended: for every crawled transaction whose `to` address is absent,
the crawler still emits the `to` row first, with an empty address cell and
the "null" slot marker (and such empty-address rows are only dropped later,
by the benchmark loader). -/
theorem absent_to_row_has_empty_address (noisy : Bool) (bn : Int)
    (block_hash : Option String) (is_contract : Bool)
    (slot_sample : Option String) (rand_slot1 rand_slot2 : String)
    (tx_from : Option String) (tx_index : Option Nat) :
    (tx_rows noisy bn block_hash is_contract slot_sample rand_slot1 rand_slot2
        tx_from none tx_index).head? =
      some ⟨bn, "", "null", false, false⟩ := by
  simp [tx_rows, tx_storage_slot, cell_or_null]

/-- C8 counterexample: in noise mode a transaction with a sampled slot gets
5 extra rows beyond the baseline pair (total 7), not 4; and a transaction
without a sampled slot still gets 2 extra rows (total 4), not 0. -/
theorem noise_row_counts_concrete :
    (tx_rows true 100 (some "0xh") true (some "0xslot4") "0xr1" "0xr2"
        (some "0xa") (some "0xb") (some 0)).length = 7
    ∧ (tx_rows true 100 (some "0xh") false none "0xr1" "0xr2"
        (some "0xa") (some "0xb") (some 0)).length = 4 := by
  exact ⟨rfl, rfl⟩

/-- C8 amended: without noise mode every transaction emits exactly the
baseline pair of rows; in noise mode a transaction emits 5 additional rows
when a storage slot was sampled for it and 2 additional rows when none
was. -/
theorem noise_row_counts (bn : Int) (block_hash : Option String)
    (is_contract : Bool) (slot_sample : Option String)
    (rand_slot1 rand_slot2 : String) (tx_from tx_to : Option String)
    (tx_index : Option Nat) :
    (tx_rows false bn block_hash is_contract slot_sample rand_slot1 rand_slot2
        tx_from tx_to tx_index).length = 2
    ∧ (tx_rows true bn block_hash is_contract slot_sample rand_slot1 rand_slot2
        tx_from tx_to tx_index).length =
      2 + (if (tx_storage_slot block_hash tx_index is_contract slot_sample
              (tx_from.getD "") (tx_to.getD "")).isSome then 5 else 2) := by
  refine ⟨by simp [tx_rows], ?_⟩
  by_cases h : (tx_storage_slot block_hash tx_index is_contract slot_sample
      (tx_from.getD "") (tx_to.getD "")).isSome
  · simp [tx_rows, h]
  · simp [tx_rows, h]

/-- C1: for a received response whose status does not raise, the row is
classified success iff the body has no `error` field and its `result` is a
JSON object carrying both an `accountProof` and a `storageProof` field (an
empty `storageProof` array satisfies this); and whenever the body carries
an `error` field the row is classified failure, whatever the HTTP status
code. -/
theorem classify_success_iff (status : Nat) (body : String)
    (parsed : Option Json) :
    (raise_for_status status = false →
      ((classify (.resp status body parsed)).1 = true ↔
        ∃ fs, parsed = some (Json.obj fs) ∧ fs.lookup "error" = none ∧
          ∃ rfs, fs.lookup "result" = some (Json.obj rfs) ∧
            (rfs.lookup "accountProof").isSome = true ∧
            (rfs.lookup "storageProof").isSome = true))
    ∧ (∀ fs, parsed = some (Json.obj fs) → (fs.lookup "error").isSome = true →
        (classify (.resp status body parsed)).1 = false) := by
  constructor
  · intro hrs
    constructor
    · intro hok
      cases parsed with
      | none => exact absurd hok (by simp [classify, hrs])
      | some j =>
        cases j with
        | obj fs =>
          cases herr : fs.lookup "error" with
          | some v => exact absurd hok (by simp [classify, hrs, herr])
          | none =>
            cases hres : fs.lookup "result" with
            | none => exact absurd hok (by simp [classify, hrs, herr, hres])
            | some r =>
              cases r with
              | obj rfs =>
                by_cases hacc : (rfs.lookup "accountProof").isSome
                · by_cases hsto : (rfs.lookup "storageProof").isSome
                  · exact ⟨fs, rfl, herr, rfs, hres, hacc, hsto⟩
                  · exact absurd hok (by simp [classify, hrs, herr, hres, hacc, hsto])
                · exact absurd hok (by simp [classify, hrs, herr, hres, hacc])
              | null => exact absurd hok (by simp [classify, hrs, herr, hres])
              | bool b => exact absurd hok (by simp [classify, hrs, herr, hres])
              | num n => exact absurd hok (by simp [classify, hrs, herr, hres])
              | str s => exact absurd hok (by simp [classify, hrs, herr, hres])
              | arr xs => exact absurd hok (by simp [classify, hrs, herr, hres])
        | null => exact absurd hok (by simp [classify, hrs])
        | bool b => exact absurd hok (by simp [classify, hrs])
        | num n => exact absurd hok (by simp [classify, hrs])
        | str s => exact absurd hok (by simp [classify, hrs])
        | arr xs => exact absurd hok (by simp [classify, hrs])
    · rintro ⟨fs, hfs, herrn, rfs, hresn, hacc, hsto⟩
      subst hfs
      simp [classify, hrs, herrn, hresn, hacc, hsto]
  · intro fs hp herr
    subst hp
    obtain ⟨v, hv⟩ := Option.isSome_iff_exists.mp herr
    by_cases hrs : raise_for_status status
    · simp [classify, hrs]
    · simp [classify, hrs, hv]

/-- Response body with an account proof and an empty storage proof, the
shape the success criterion accepts even with no slot requested. -/
def good_body : Json :=
  Json.obj
    [("jsonrpc", Json.str "2.0"), ("id", Json.num 1),
     ("result", Json.obj
       [("accountProof", Json.arr [Json.str "0xnode"]),
        ("storageProof", Json.arr [])])]

/-- Witness for C1: a 200 response whose `result` has an `accountProof` and
an empty `storageProof` is classified success, and a response with an
`error` field is classified failure even on HTTP 200 and on HTTP 500. -/
theorem classify_success_iff_witness :
    (classify (.resp 200 "" (some good_body))).1 = true
    ∧ (classify (.resp 200 "" (some (Json.obj [("error", Json.obj [])])))).1 = false
    ∧ (classify (.resp 500 "" (some (Json.obj [("error", Json.obj [])])))).1 = false := by
  refine ⟨?_, ?_, ?_⟩
  · exact ((classify_success_iff 200 "" (some good_body)).1 rfl).2
      ⟨_, rfl, rfl, _, rfl, rfl, rfl⟩
  · exact (classify_success_iff 200 "" _).2 _ rfl rfl
  · exact (classify_success_iff 500 "" _).2 _ rfl rfl

/-! Specification-side description of the block-number resolver: each row is
resolved independently of the fold, from its own block number or the
nearest preceding present one. -/

/-- Last present value of a list of optional block numbers, after an
initial state: the carry-forward the spec describes. -/
def carry_forward (init : Option Int) (bns : List (Option Int)) : Option Int :=
  bns.foldl (fun acc x => match x with | some v => some v | none => acc) init

/-- State update of the carry: a present block number replaces the state. -/
def bn_step (init : Option Int) (bn_opt : Option Int) : Option Int :=
  match bn_opt with
  | some b => some b
  | none => init

/-- Effective block the spec assigns to row `i`, relative to an initial
carry state: the row's own block number when present, else the nearest
preceding present one (`none` when no present value precedes and the carry
state is empty, or when `i` is out of range). -/
def spec_effective_from (init : Option Int) (rows : List LoadedRow) (i : Nat) :
    Option Int :=
  match rows.get? i with
  | some (some b, _, _) => some b
  | some (none, _, _) => carry_forward init ((rows.take i).map (fun r => r.1))
  | none => none

/-- Output row the spec produces for input index `i`: the row with its
effective block when one exists, nothing when the row is dropped. -/
def resolve_entry (init : Option Int) (rows : List LoadedRow) (i : Nat) :
    Option ResolvedRow :=
  match rows.get? i, spec_effective_from init rows i with
  | some (bn_opt, addr, slot), some e => some (e, bn_opt, addr, slot)
  | _, _ => none

/-- Spec-side resolver output: every input row in order, mapped to its
effective block, rows without one dropped. -/
def spec_resolved_from (init : Option Int) (rows : List LoadedRow) :
    List ResolvedRow :=
  (List.range rows.length).filterMap (resolve_entry init rows)

/-- Spec-side dropped-row count: the rows with no effective block. -/
def spec_dropped_from (init : Option Int) (rows : List LoadedRow) : Nat :=
  ((List.range rows.length).filter
    (fun i => (spec_effective_from init rows i).isNone)).length

theorem spec_effective_from_succ (init : Option Int) (bn_opt : Option Int)
    (addr : String) (slot : Option String) (rest : List LoadedRow) (i : Nat) :
    spec_effective_from init ((bn_opt, addr, slot) :: rest) (i + 1) =
      spec_effective_from (bn_step init bn_opt) rest i := by
  unfold spec_effective_from
  rw [List.get?_cons_succ]
  cases h : rest.get? i with
  | none => rfl
  | some r =>
    obtain ⟨bo, a, s⟩ := r
    cases bo with
    | some b => rfl
    | none =>
      simp only [List.take_succ_cons, List.map_cons, carry_forward, List.foldl_cons]
      cases bn_opt <;> rfl

theorem resolve_entry_succ (init : Option Int) (bn_opt : Option Int)
    (addr : String) (slot : Option String) (rest : List LoadedRow) (i : Nat) :
    resolve_entry init ((bn_opt, addr, slot) :: rest) (i + 1) =
      resolve_entry (bn_step init bn_opt) rest i := by
  unfold resolve_entry
  rw [List.get?_cons_succ, spec_effective_from_succ]

theorem spec_resolved_from_cons (init : Option Int) (bn_opt : Option Int)
    (addr : String) (slot : Option String) (rest : List LoadedRow) :
    spec_resolved_from init ((bn_opt, addr, slot) :: rest) =
      (match bn_opt, init with
        | some b, _ => [((b : Int), some b, addr, slot)]
        | none, some l => [(l, none, addr, slot)]
        | none, none => []) ++
      spec_resolved_from (bn_step init bn_opt) rest := by
  unfold spec_resolved_from
  rw [List.length_cons, List.range_succ_eq_map, List.filterMap_cons,
    List.filterMap_map]
  have hcomp : resolve_entry init ((bn_opt, addr, slot) :: rest) ∘ Nat.succ =
      resolve_entry (bn_step init bn_opt) rest :=
    funext (fun i => resolve_entry_succ init bn_opt addr slot rest i)
  rw [hcomp]
  cases bn_opt <;> cases init <;> rfl

theorem spec_dropped_from_cons (init : Option Int) (bn_opt : Option Int)
    (addr : String) (slot : Option String) (rest : List LoadedRow) :
    spec_dropped_from init ((bn_opt, addr, slot) :: rest) =
      (match bn_opt, init with
        | some _, _ => 0
        | none, some _ => 0
        | none, none => 1) +
      spec_dropped_from (bn_step init bn_opt) rest := by
  unfold spec_dropped_from
  rw [List.length_cons, List.range_succ_eq_map, List.filter_cons,
    List.filter_map]
  have hcomp : (fun i =>
      (spec_effective_from init ((bn_opt, addr, slot) :: rest) i).isNone) ∘
        Nat.succ =
      fun i => (spec_effective_from (bn_step init bn_opt) rest i).isNone :=
    funext (fun i => by
      simp only [Function.comp_apply, Nat.succ_eq_add_one,
        spec_effective_from_succ])
  rw [hcomp]
  cases bn_opt <;> cases init <;> simp [spec_effective_from, carry_forward] <;> omega

/-- Central helper for C4 and C5: the left-to-right fold of
`resolve_block_numbers` computes exactly the spec-side per-row resolution
and drop count, for every initial carry state. -/
theorem resolve_aux_eq_spec (rows : List LoadedRow) :
    ∀ init : Option Int,
      resolve_aux init rows =
        (spec_resolved_from init rows, spec_dropped_from init rows) := by
  induction rows with
  | nil => intro init; rfl
  | cons r rest ih =>
    intro init
    obtain ⟨bn_opt, addr, slot⟩ := r
    rw [spec_resolved_from_cons, spec_dropped_from_cons]
    cases bn_opt with
    | some b => simp [resolve_aux, ih (some b), bn_step]
    | none =>
      cases init with
      | some l => simp [resolve_aux, ih (some l), bn_step]
      | none => simp [resolve_aux, ih none, bn_step]; omega

theorem carry_forward_some_ne_none (bns : List (Option Int)) :
    ∀ v : Int, carry_forward (some v) bns ≠ none := by
  induction bns with
  | nil => intro v h; cases h
  | cons x l ih =>
    intro v
    cases x with
    | none => exact ih v
    | some w => exact ih w

/-- C4: for every input sequence, every output row of the resolver carries
as effective block its own block number when present, and otherwise the
nearest preceding present one — and the carry survives any number of
intervening absent rows. -/
theorem resolver_effective_blocks (rows : List LoadedRow) :
    (resolve_block_numbers rows).1 = spec_resolved_from none rows
    ∧ ∀ (pre : List (Option Int)) (v : Int) (k : Nat),
        carry_forward none (pre ++ some v :: List.replicate k none) = some v := by
  constructor
  · rw [resolve_block_numbers, resolve_aux_eq_spec rows none]
  · intro pre v k
    have h1 : carry_forward none (pre ++ some v :: List.replicate k none) =
        carry_forward (some v) (List.replicate k none) := by
      unfold carry_forward
      rw [List.foldl_append]
      rfl
    rw [h1]
    clear h1
    induction k with
    | zero => rfl
    | succ k ihk => rw [List.replicate_succ]; exact ihk

theorem resolve_aux_length (rows : List LoadedRow) :
    ∀ init : Option Int,
      (resolve_aux init rows).1.length + (resolve_aux init rows).2 =
        rows.length := by
  induction rows with
  | nil => intro init; rfl
  | cons r rest ih =>
    intro init
    obtain ⟨bn_opt, addr, slot⟩ := r
    cases bn_opt with
    | some b => have h := ih (some b); simp [resolve_aux] at h ⊢; omega
    | none =>
      cases init with
      | some l => have h := ih (some l); simp [resolve_aux] at h ⊢; omega
      | none => have h := ih none; simp [resolve_aux] at h ⊢; omega

/-- C5: the resolver drops exactly those rows with an absent block number
preceded by no present one (no effective block), reports the count through
the warning line exactly when it is positive, and never fails: every input
row is either resolved or counted as skipped. -/
theorem resolver_drop_count (rows : List LoadedRow) :
    (resolve_block_numbers rows).2 = spec_dropped_from none rows
    ∧ (resolve_block_numbers rows).1.length + (resolve_block_numbers rows).2 =
        rows.length
    ∧ (∀ bns : List (Option Int),
        carry_forward none bns = none ↔ ∀ x ∈ bns, x = none)
    ∧ resolve_warning rows =
        (if (resolve_block_numbers rows).2 = 0 then none
         else some ("[WARN] Skipped " ++ toString (resolve_block_numbers rows).2 ++
           " rows with empty/invalid block_number before any valid block was seen.")) := by
  refine ⟨?_, resolve_aux_length rows none, ?_, rfl⟩
  · rw [resolve_block_numbers, resolve_aux_eq_spec rows none]
  · intro bns
    induction bns with
    | nil => simp [carry_forward]
    | cons x l ihl =>
      cases x with
      | none =>
        constructor
        · intro h
          intro y hy
          rcases List.mem_cons.mp hy with h1 | h2
          · exact h1 ▸ rfl
          · exact (ihl.mp h) y h2
        · intro h
          exact ihl.mpr (fun y hy => h y (List.mem_cons_of_mem _ hy))
      | some w =>
        constructor
        · intro h
          exact absurd h (carry_forward_some_ne_none l w)
        · intro h
          exact absurd (h (some w) (List.mem_cons_self _ _)) (by simp)

theorem sorted_le_getLast {s : List ℚ} (hs : List.Sorted (· ≤ ·) s) {x : ℚ}
    (hx : x ∈ s) : x ≤ s.getLast?.getD 0 := by
  induction s with
  | nil => cases hx
  | cons a t ih =>
    rw [List.sorted_cons] at hs
    cases t with
    | nil =>
      rw [List.mem_singleton] at hx
      subst hx
      simp [List.getLast?]
    | cons b t2 =>
      rw [List.getLast?_cons_cons]
      rcases List.mem_cons.mp hx with h1 | h2
      · subst h1
        have hmem : (b :: t2).getLast?.getD 0 ∈ b :: t2 := by
          rw [List.getLast?_eq_getLast _ (by simp)]
          exact List.getLast_mem _
        exact hs.1 _ hmem
      · exact ih hs.2 h2

theorem pct_index_lt (p : ℚ) (hp0 : 0 ≤ p) (hp1 : p ≤ 1) (n : Nat)
    (hn : n ≠ 0) : pct_index p n < n := by
  have h1 : (1 : ℚ) ≤ (n : ℚ) := by
    exact_mod_cast Nat.one_le_iff_ne_zero.mpr hn
  have h2 : p * ((n : ℚ) - 1) ≤ (n : ℚ) - 1 := by nlinarith
  have h3 : Int.floor (p * ((n : ℚ) - 1)) ≤ Int.floor ((n : ℚ) - 1) :=
    Int.floor_le_floor h2
  have h4 : Int.floor ((n : ℚ) - 1) = (n : ℤ) - 1 := by
    rw [show ((n : ℚ) - 1) = (((n : ℤ) - 1 : ℤ) : ℚ) by push_cast; ring]
    exact Int.floor_intCast _
  rw [h4] at h3
  unfold pct_index
  omega

/-- C2: for every non-empty latency sample, the reported p50 and p95 are
the elements at index `floor(p * (n - 1))` of the ascending sort of the
sample (any sorted permutation of it), those indices are in range, and with
fewer than 100 samples the reported p99 is the last — and largest —
element of the sort. -/
theorem percentile_indexing (l s : List ℚ) (hne : l ≠ [])
    (hs : List.Sorted (· ≤ ·) s) (hp : l.Perm s) :
    (latency_stats l).p50 =
      s.getD ((Int.floor ((1/2 : ℚ) * ((l.length : ℚ) - 1))).toNat) 0
    ∧ (latency_stats l).p95 =
      s.getD ((Int.floor ((19/20 : ℚ) * ((l.length : ℚ) - 1))).toNat) 0
    ∧ (Int.floor ((1/2 : ℚ) * ((l.length : ℚ) - 1))).toNat < l.length
    ∧ (Int.floor ((19/20 : ℚ) * ((l.length : ℚ) - 1))).toNat < l.length
    ∧ (l.length < 100 →
        (latency_stats l).p99 = s.getLast?.getD 0
        ∧ ∀ x ∈ l, x ≤ (latency_stats l).p99) := by
  have hlen : l ≠ [] → l.length ≠ 0 := fun h => by
    simpa [List.length_eq_zero] using h
  have hsorted : List.Sorted (· ≤ ·) (List.insertionSort (· ≤ ·) l) :=
    List.sorted_insertionSort (· ≤ ·) l
  have hperm : (List.insertionSort (· ≤ ·) l).Perm s :=
    (List.perm_insertionSort (· ≤ ·) l).trans hp
  have hkey : List.insertionSort (· ≤ ·) l = s :=
    List.eq_of_perm_of_sorted hperm hsorted hs
  refine ⟨?_, ?_, ?_, ?_, ?_⟩
  · show (List.insertionSort (· ≤ ·) l).getD (pct_index (1/2) l.length) 0 = _
    rw [hkey]; rfl
  · show (List.insertionSort (· ≤ ·) l).getD (pct_index (19/20) l.length) 0 = _
    rw [hkey]; rfl
  · exact pct_index_lt (1/2) (by norm_num) (by norm_num) l.length (hlen hne)
  · exact pct_index_lt (19/20) (by norm_num) (by norm_num) l.length (hlen hne)
  · intro h100
    have hif : (latency_stats l).p99 =
        (List.insertionSort (· ≤ ·) l).getLast?.getD 0 := by
      unfold latency_stats
      simp only [if_neg (by omega : ¬ 100 ≤ l.length)]
    constructor
    · rw [hif, hkey]
    · intro x hx
      rw [hif, hkey]
      exact sorted_le_getLast hs ((hp.mem_iff).mp hx)

/-- Synthetic latency sample 0.1, 0.2, ..., 1.0 of the spec. -/
def qsample : List ℚ :=
  [1/10, 2/10, 3/10, 4/10, 5/10, 6/10, 7/10, 8/10, 9/10, 1]

/-- Witness for C2: on the sample [0.1, ..., 1.0], p50 is
`sorted[floor(0.5 * 9)] = sorted[4] = 0.5`, p95 is `sorted[8] = 0.9`, and
p99 (10 < 100 samples) is the last element 1.0. -/
theorem percentile_indexing_witness :
    (latency_stats qsample).p50 = 1/2
    ∧ (latency_stats qsample).p95 = 9/10
    ∧ (latency_stats qsample).p99 = 1 := by
  have hsorted : List.Sorted (· ≤ ·) qsample := by
    unfold qsample
    simp only [List.sorted_cons, List.mem_cons, List.mem_singleton,
      List.not_mem_nil, List.sorted_nil, and_true]
    norm_num
  have h := percentile_indexing qsample qsample (by simp [qsample])
    hsorted (List.Perm.refl _)
  have hlen : qsample.length = 10 := rfl
  refine ⟨?_, ?_, ?_⟩
  · have h1 := h.1
    rw [hlen] at h1
    rw [h1]
    norm_num [qsample]
    rfl
  · have h1 := h.2.1
    rw [hlen] at h1
    rw [h1]
    norm_num [qsample]
    rfl
  · have h1 := (h.2.2.2.2 (by rw [hlen]; norm_num)).1
    rw [h1]
    norm_num [qsample]

/-- C9: with an empty resolved row sequence, `run_batch` returns normally
with the "No usable rows" summary line, issuing no request and reaching
neither the percentile indexing nor the fail-rate division; and for every
non-empty row sequence those operations are safe: all three percentile
indices are in range and the divisor is non-zero. -/
theorem empty_rows_complete (mode_name : String)
    (oracle : Nat → HttpOutcome × ℚ) (block_param_fn : Int → BlockParam) :
    run_batch mode_name oracle block_param_fn [] =
      ([], .noRows ("[" ++ mode_name ++ "] No usable rows."))
    ∧ (∀ n : Nat, n ≠ 0 →
        pct_index (1/2) n < n ∧ pct_index (19/20) n < n ∧
        pct_index (99/100) n < n ∧ ((n : ℚ) ≠ 0)) := by
  refine ⟨rfl, ?_⟩
  intro n hn
  exact ⟨pct_index_lt _ (by norm_num) (by norm_num) n hn,
    pct_index_lt _ (by norm_num) (by norm_num) n hn,
    pct_index_lt _ (by norm_num) (by norm_num) n hn,
    by exact_mod_cast hn⟩

/-- Witness for C9 at a concrete mode, oracle and sample size. -/
theorem empty_rows_complete_witness :
    run_batch "REAL-BLOCKS" (fun _ => (HttpOutcome.exn "net", 0))
        (fun n => BlockParam.num n) [] =
      ([], BatchReport.noRows "[REAL-BLOCKS] No usable rows.")
    ∧ pct_index (1/2) 10 < 10 :=
  ⟨(empty_rows_complete "REAL-BLOCKS" (fun _ => (HttpOutcome.exn "net", 0))
      (fun n => BlockParam.num n)).1,
   ((empty_rows_complete "REAL-BLOCKS" (fun _ => (HttpOutcome.exn "net", 0))
      (fun n => BlockParam.num n)).2 10 (by norm_num)).1⟩

theorem pyStrip_eq_empty_iff (s : String) :
    pyStrip s = "" ↔ s.data.all isPySpace = true := by
  unfold pyStrip
  constructor
  · intro h
    have hdata :
        ((s.data.dropWhile isPySpace).reverse.dropWhile isPySpace).reverse = [] := by
      have h2 := congrArg String.data h
      simpa using h2
    rw [List.reverse_eq_nil_iff, List.dropWhile_eq_nil_iff] at hdata
    rw [List.all_eq_true]
    intro x hx
    rw [← List.takeWhile_append_dropWhile (p := isPySpace) (l := s.data)] at hx
    rcases List.mem_append.mp hx with h1 | h2
    · exact List.mem_takeWhile_imp h1
    · exact hdata x (List.mem_reverse.mpr h2)
  · intro h
    have h1 : s.data.dropWhile isPySpace = [] :=
      List.dropWhile_eq_nil_iff.mpr (fun x hx => (List.all_eq_true.mp h) x hx)
    rw [h1]
    rfl

/-- C10: the benchmark row loader excludes exactly the CSV records whose
address cell is empty or all-whitespace: such a record yields no row, the
output over any record list equals the output over the list with those
records removed, and an address strips to empty precisely when it consists
only of whitespace. -/
theorem loader_skips_blank_addresses (recs : List CsvRecord) :
    (∀ r : CsvRecord,
      (r.address.getD "").data.all isPySpace = true → load_row r = none)
    ∧ load_rows recs =
        load_rows (recs.filter
          (fun r => !((r.address.getD "").data.all isPySpace)))
    ∧ (∀ s : String, (pyStrip s = "" ↔ s.data.all isPySpace = true)) := by
  have hblank : ∀ r : CsvRecord,
      (r.address.getD "").data.all isPySpace = true → load_row r = none := by
    intro r h
    unfold load_row
    rw [if_pos ((pyStrip_eq_empty_iff _).mpr h)]
  refine ⟨hblank, ?_, pyStrip_eq_empty_iff⟩
  induction recs with
  | nil => rfl
  | cons r rest ih =>
    by_cases h : (r.address.getD "").data.all isPySpace = true
    · have hfil : (r :: rest).filter
          (fun r => !((r.address.getD "").data.all isPySpace)) =
          rest.filter (fun r => !((r.address.getD "").data.all isPySpace)) := by
        rw [List.filter_cons]
        simp [h]
      rw [hfil]
      show (r :: rest).filterMap load_row = _
      rw [List.filterMap_cons, hblank r h]
      exact ih
    · have hfil : (r :: rest).filter
          (fun r => !((r.address.getD "").data.all isPySpace)) =
          r :: rest.filter (fun r => !((r.address.getD "").data.all isPySpace)) := by
        rw [List.filter_cons]
        simp [h]
      rw [hfil]
      show (r :: rest).filterMap load_row =
        (r :: rest.filter (fun r => !((r.address.getD "").data.all isPySpace))).filterMap load_row
      rw [List.filterMap_cons, List.filterMap_cons]
      have ih2 : rest.filterMap load_row =
          (rest.filter (fun r => !((r.address.getD "").data.all isPySpace))).filterMap
            load_row := ih
      rw [ih2]

/-- Witness for C10: a record whose address cell is three spaces yields no
row and vanishes from the loader output. -/
theorem loader_skips_blank_addresses_witness :
    load_row ⟨some "5", some "   ", some "null"⟩ = none
    ∧ load_rows [⟨some "5", some "   ", some "null"⟩] = [] := by
  have h := loader_skips_blank_addresses [⟨some "5", some "   ", some "null"⟩]
  refine ⟨h.1 _ (by decide), ?_⟩
  rw [h.2.1]
  rfl

end EthProofTester
